import Mathlib

/-!
Shallow embedding of the `daemon_rs` structured-logging daemon, covering the
storage engine (`src/storage.rs`), the connection handler and frame reader
(`src/server.rs`), and the schema validator (`src/schema.rs`).

External library calls (chrono RFC-3339 parsing, serde_json serialization,
the operating system's file I/O) are modelled as explicit parameters or
oracles; everything else is translated line by line from the source.
-/

namespace DaemonRs

/-- A minimal JSON value, standing for `serde_json::Value` / `simd_json::OwnedValue`. -/
inductive Json where
  | str : String → Json
  | num : Int → Json
  | bool : Bool → Json
  | null : Json
  | arr : List Json → Json
  | obj : List (String × Json) → Json

/-- `LogEntry` from `src/schema.rs` lines 12-21: the strongly typed log record.
`metadata` holds the JSON value (`Option<OwnedValue>` in the source). -/
structure LogEntry where
  timestamp : String
  level : String
  message : String
  service : Option String
  trace_id : Option String
  metadata : Option Json

/-- One `metrics::counter!` / `metrics::histogram!` call made by the code.
The five metric names are the constants of `src/metrics.rs` lines 6-10. -/
inductive MetricEvent where
  | ingestCount : MetricEvent
  | bytesProcessed : Nat → MetricEvent
  | droppedMessages : MetricEvent
  | writeLatency : MetricEvent
  | activeConnections : MetricEvent
deriving Repr, DecidableEq

/-! ## Storage engine (`src/storage.rs`) -/

/-- The error kinds a storage operation can surface (`anyhow` errors in the
source, distinguished here by the failing step). -/
inductive StorageErr where
  | createFile : StorageErr
  | writerInit : StorageErr
  | writeBatch : StorageErr
  | finalize : StorageErr
  | metaData : StorageErr
  | columnBuild : StorageErr
deriving Repr, DecidableEq

/-- Outcome oracle for the fallible I/O steps of one `write_record_batch` call:
`File::create`, `ArrowWriter::try_new`, `writer.write`, `writer.close`,
`std::fs::metadata`, and the size the filesystem reports on success. -/
structure FsOracle where
  createOk : Bool
  writerOk : Bool
  writeOk : Bool
  closeOk : Bool
  metaOk : Bool
  fileSize : Nat
deriving Repr, DecidableEq

/-- An oracle under which every I/O step succeeds. -/
def FsOracle.allOk (o : FsOracle) : Prop :=
  o.createOk = true ∧ o.writerOk = true ∧ o.writeOk = true ∧
  o.closeOk = true ∧ o.metaOk = true

instance (o : FsOracle) : Decidable o.allOk := by
  unfold FsOracle.allOk; infer_instance

/-- A file on disk, identified by the `file_counter` value baked into its name.
`complete` is false while the Parquet footer has not been written
(`writer.close()` has not succeeded). -/
structure FsFile where
  name : Nat
  rows : Nat
  complete : Bool
deriving Repr, DecidableEq

/-- The world outside the engine: the storage directory's files and the
process-global metric events, in emission order. -/
structure World where
  fs : List FsFile
  metrics : List MetricEvent
deriving Repr, DecidableEq

/-- External functions the storage engine calls: chrono's
`DateTime::parse_from_rfc3339(..).timestamp_millis()` (`none` models a parse
error) and serde's `Value::to_string` for the metadata column. -/
structure Ext where
  parseRfc3339Millis : String → Option Int
  jsonToString : Json → String

/-- `StorageEngine` from `src/storage.rs` lines 16-27 (the `storage_dir` and
`compression` fields play no role in the verified claims and are omitted;
file paths are identified by the counter embedded in their name). -/
structure StorageEngine where
  batch_size : Nat
  current_batch : List LogEntry
  current_file_path : Option Nat
  current_file_size : Nat
  file_counter : Nat

/-- `StorageEngine::new` (lines 30-50): empty batch, zeroed tracking fields. -/
def StorageEngine.new (batch_size : Nat) : StorageEngine :=
  { batch_size := batch_size
    current_batch := []
    current_file_path := none
    current_file_size := 0
    file_counter := 0 }

/-- The six column vectors built by the loop of `logs_to_record_batch`
(lines 131-171). -/
structure ColumnBuilders where
  timestamps : List Int
  levels : List String
  messages : List String
  services : List (Option String)
  trace_ids : List (Option String)
  metadatas : List (Option String)
deriving Repr, DecidableEq

/-- The per-record body of the column-building loop (lines 138-171): the
timestamp string is parsed as RFC-3339 and mapped to epoch milliseconds,
defaulting to 0 on failure; optional fields become nullable column values;
`metadata` is serialized to its JSON text. -/
def buildColumns (ext : Ext) : List LogEntry → ColumnBuilders
  | [] =>
    { timestamps := [], levels := [], messages := []
      services := [], trace_ids := [], metadatas := [] }
  | log :: rest =>
    let c := buildColumns ext rest
    { timestamps := ((ext.parseRfc3339Millis log.timestamp).getD 0) :: c.timestamps
      levels := log.level :: c.levels
      messages := log.message :: c.messages
      services := log.service :: c.services
      trace_ids := log.trace_id :: c.trace_ids
      metadatas := (log.metadata.map ext.jsonToString) :: c.metadatas }

/-- An Arrow `RecordBatch` over the fixed six-column schema of
`create_schema` (lines 197-210). -/
structure RecordBatch where
  numRows : Nat
  cols : ColumnBuilders
deriving Repr, DecidableEq

/-- `RecordBatch::try_new` (arrow): succeeds iff all columns have equal
length, which becomes the row count. -/
def RecordBatch.tryNew (c : ColumnBuilders) : Except StorageErr RecordBatch :=
  if c.levels.length = c.timestamps.length ∧
     c.messages.length = c.timestamps.length ∧
     c.services.length = c.timestamps.length ∧
     c.trace_ids.length = c.timestamps.length ∧
     c.metadatas.length = c.timestamps.length then
    .ok { numRows := c.timestamps.length, cols := c }
  else
    .error .columnBuild

/-- `StorageEngine::logs_to_record_batch` (lines 129-194): build the six
columns, then assemble the record batch. -/
def logsToRecordBatch (ext : Ext) (logs : List LogEntry) :
    Except StorageErr RecordBatch :=
  RecordBatch.tryNew (buildColumns ext logs)

/-- `StorageEngine::generate_file_path` (lines 117-126): the name carries the
current `file_counter`, which is then incremented. -/
def StorageEngine.generateFilePath (e : StorageEngine) : Nat × StorageEngine :=
  (e.file_counter, { e with file_counter := e.file_counter + 1 })

/-- `StorageEngine::write_record_batch` (lines 213-231). `File::create` failure
leaves no file; any later failure leaves the created file incomplete on disk
(the source performs no cleanup). On success the file is complete and
`current_file_size` is set from `std::fs::metadata`. -/
def StorageEngine.writeRecordBatch (o : FsOracle) (e : StorageEngine)
    (name : Nat) (batch : RecordBatch) (w : World) :
    Except StorageErr Unit × StorageEngine × World :=
  if o.createOk = false then
    (.error .createFile, e, w)
  else
    let w1 : World := { w with fs := w.fs ++ [⟨name, 0, false⟩] }
    if o.writerOk = false then
      (.error .writerInit, e, w1)
    else if o.writeOk = false then
      (.error .writeBatch, e, w1)
    else if o.closeOk = false then
      (.error .finalize, e, w1)
    else
      let w2 : World := { w with fs := w.fs ++ [⟨name, batch.numRows, true⟩] }
      if o.metaOk = false then
        (.error .metaData, e, w2)
      else
        (.ok (), { e with current_file_size := o.fileSize }, w2)

/-- `StorageEngine::flush` (lines 68-99). Empty batch: early return, nothing
happens. Otherwise: generate a path (incrementing `file_counter`), build the
record batch, write it; each `?` propagates the error immediately, so the
batch is cleared — and the latency/bytes metrics emitted — only after every
step has succeeded. -/
def StorageEngine.flush (ext : Ext) (o : FsOracle) (e : StorageEngine)
    (w : World) : Except StorageErr Unit × StorageEngine × World :=
  if e.current_batch.isEmpty then
    (.ok (), e, w)
  else
    let (name, e1) := e.generateFilePath
    match logsToRecordBatch ext e1.current_batch with
    | .error err => (.error err, e1, w)
    | .ok batch =>
      match e1.writeRecordBatch o name batch w with
      | (.error err, e2, w2) => (.error err, e2, w2)
      | (.ok _, e2, w2) =>
        let w3 : World :=
          { w2 with metrics := w2.metrics ++
              [.writeLatency, .bytesProcessed e2.current_file_size] }
        (.ok (),
         { e2 with current_batch := [], current_file_path := none,
                   current_file_size := 0 },
         w3)

/-- `StorageEngine::add_log` (lines 54-64): push the record, emit the
`ingest_count` metric, and flush (propagating its error) once the batch
length reaches `batch_size`. -/
def StorageEngine.addLog (ext : Ext) (o : FsOracle) (e : StorageEngine)
    (log : LogEntry) (w : World) :
    Except StorageErr Unit × StorageEngine × World :=
  let e1 : StorageEngine := { e with current_batch := e.current_batch ++ [log] }
  let w1 : World := { w with metrics := w.metrics ++ [.ingestCount] }
  if e1.current_batch.length ≥ e1.batch_size then
    StorageEngine.flush ext o e1 w1
  else
    (.ok (), e1, w1)

/-- An operation applied to the engine by its single owner (the flusher task):
either `add_log` of a record or an explicit `flush`, each paired with the
I/O oracle governing that call. -/
inductive StorageOp where
  | addLog : LogEntry → FsOracle → StorageOp
  | flushOp : FsOracle → StorageOp

/-- Run a sequence of storage operations, threading engine and world.
Errors are swallowed by the flusher (`src/server.rs` lines 69-78), so the
run continues with whatever state the failing call left behind. -/
def runOps (ext : Ext) : List StorageOp → StorageEngine → World →
    StorageEngine × World
  | [], e, w => (e, w)
  | .addLog log o :: rest, e, w =>
    let (_, e1, w1) := StorageEngine.addLog ext o e log w
    runOps ext rest e1 w1
  | .flushOp o :: rest, e, w =>
    let (_, e1, w1) := StorageEngine.flush ext o e w
    runOps ext rest e1 w1

/-! ## Frame reader and connection handler (`src/server.rs`) -/

/-- Result of `mpsc::Sender::try_send` (tokio): accepted, rejected because the
queue is full, or rejected because the queue is closed. -/
inductive SendResult where
  | ok : SendResult
  | full : SendResult
  | closed : SendResult
deriving Repr, DecidableEq

/-- Observable state of one `handle_connection` run: the framing accumulator,
the payloads handed to `parse_fast` in order, the `metrics::counter!` events
emitted, and the number of `Invalid log` warnings logged. -/
structure ConnState where
  accumulator : List Nat
  messages : List (List Nat)
  metrics : List MetricEvent
  invalidWarns : Nat
deriving Repr, DecidableEq

/-- The empty connection state at handler entry (lines 134-136). -/
def ConnState.init : ConnState :=
  { accumulator := [], messages := [], metrics := [], invalidWarns := 0 }

/-- `u32::from_be_bytes` applied to the first four buffered bytes
(lines 161-166). -/
def be32 : List Nat → Nat
  | b0 :: b1 :: b2 :: b3 :: _ => ((b0 * 256 + b1) * 256 + b2) * 256 + b3
  | _ => 0

/-- The four big-endian bytes of a 32-bit length, as a client writes them on
the wire. -/
def be32Bytes (n : Nat) : List Nat :=
  [n / 2 ^ 24 % 256, n / 2 ^ 16 % 256, n / 2 ^ 8 % 256, n % 256]

/-- The inner frame-draining loop of `handle_connection` (lines 154-205),
written with explicit fuel (each iteration consumes at least 4 bytes, so
`accumulator.length` is always enough fuel; see `processFramesF_congr`).

The loop: stop when fewer than 4 bytes are buffered; read the big-endian
length; stop when the frame is incomplete; otherwise consume the header and
payload and hand the payload to `parse_fast`. On a parse error, log a
warning and continue. On success, `try_send`: accepted → continue; full →
count `dropped_messages` and continue; closed → `break` — which in the
source exits only this inner loop, not the surrounding read loop.
The second component threads the index of the next `try_send` call into the
oracle that models the queue's responses. -/
def processFramesF (parse : List Nat → Option LogEntry)
    (oracle : Nat → SendResult) :
    Nat → ConnState → Nat → ConnState × Nat
  | 0, s, idx => (s, idx)
  | fuel + 1, s, idx =>
    if s.accumulator.length < 4 then (s, idx)
    else
      let L := be32 (s.accumulator.take 4)
      if s.accumulator.length < 4 + L then (s, idx)
      else
        let msg := (s.accumulator.drop 4).take L
        let s1 : ConnState :=
          { s with accumulator := s.accumulator.drop (4 + L),
                   messages := s.messages ++ [msg] }
        match parse msg with
        | none =>
          processFramesF parse oracle fuel
            { s1 with invalidWarns := s1.invalidWarns + 1 } idx
        | some _ =>
          match oracle idx with
          | .ok => processFramesF parse oracle fuel s1 (idx + 1)
          | .full =>
            processFramesF parse oracle fuel
              { s1 with metrics := s1.metrics ++ [.droppedMessages] } (idx + 1)
          | .closed => (s1, idx + 1)

/-- The inner loop with its fuel fixed to the accumulator length (always
sufficient, since every iteration consumes at least 4 bytes). -/
def processFrames (parse : List Nat → Option LogEntry)
    (oracle : Nat → SendResult) (s : ConnState) (idx : Nat) :
    ConnState × Nat :=
  processFramesF parse oracle s.accumulator.length s idx

/-- The outer read loop of `handle_connection` (lines 140-206): each
successful read appends its bytes to the accumulator and drains the complete
frames; the loop ends when the peer closes the stream (`n == 0`), here the
end of the chunk list. -/
def handleConn (parse : List Nat → Option LogEntry)
    (oracle : Nat → SendResult) :
    List (List Nat) → ConnState → Nat → ConnState × Nat
  | [], s, idx => (s, idx)
  | c :: rest, s, idx =>
    let p := processFrames parse oracle { s with accumulator := s.accumulator ++ c } idx
    handleConn parse oracle rest p.1 p.2

/-- Pure frame extraction: the messages the inner loop carves out of a byte
buffer, and the incomplete leftover, ignoring parse/enqueue effects
(fuel-indexed like `processFramesF`). -/
def drainF : Nat → List Nat → List (List Nat) × List Nat
  | 0, acc => ([], acc)
  | fuel + 1, acc =>
    if acc.length < 4 then ([], acc)
    else
      let L := be32 (acc.take 4)
      if acc.length < 4 + L then ([], acc)
      else
        let p := drainF fuel (acc.drop (4 + L))
        ((acc.drop 4).take L :: p.1, p.2)

/-- Pure frame extraction with sufficient fuel. -/
def drain (acc : List Nat) : List (List Nat) × List Nat :=
  drainF acc.length acc

/-- Modelled from the spec, §4.3: "Maintain an accumulator of received bytes.
Repeatedly: if fewer than 4 bytes are buffered, yield; parse `L` from the
first 4 bytes; if fewer than `4 + L` bytes are buffered, yield; consume
4 bytes (length) and split off the next `L` bytes as a message." -/
def frameReaderSpecF : Nat → List Nat → List (List Nat) × List Nat
  | 0, buffered => ([], buffered)
  | fuel + 1, buffered =>
    if buffered.length < 4 then ([], buffered)
    else
      let L := be32 (buffered.take 4)
      if buffered.length < 4 + L then ([], buffered)
      else
        let afterHeader := buffered.drop 4
        let message := afterHeader.take L
        let p := frameReaderSpecF fuel (afterHeader.drop L)
        (message :: p.1, p.2)

/-- The spec's frame algorithm with sufficient fuel. -/
def frameReaderSpec (stream : List Nat) : List (List Nat) × List Nat :=
  frameReaderSpecF stream.length stream

/-! ## Schema validator (`src/schema.rs`) -/

/-- serde's `rename_all = "camelCase"` rule on one identifier: drop each
underscore and capitalize the letter that follows it (single-word
lowercase identifiers are unchanged). -/
def camelChars : List Char → List Char
  | [] => []
  | '_' :: c :: rest => c.toUpper :: camelChars rest
  | c :: rest => c :: camelChars rest

/-- The JSON object key serde uses for a `LogEntry` field, under the
`#[serde(rename_all = "camelCase")]` attribute on the struct
(`src/schema.rs` line 13). -/
def serdeKey (fieldName : String) : String :=
  String.mk (camelChars fieldName.toList)

/-- First binding of a key in a JSON object (serde_json object lookup). -/
def lookupKey (kvs : List (String × Json)) (key : String) : Option Json :=
  match kvs with
  | [] => none
  | (k, v) :: rest => if k = key then some v else lookupKey rest key

/-- The JSON-type test the default schema's `properties` entries perform
(`"type": "string"` / `"type": "object"`). -/
def typeOk (ty : String) (v : Json) : Bool :=
  match ty, v with
  | "string", .str _ => true
  | "object", .obj _ => true
  | _, _ => false

/-- The property list of `SchemaValidator::default_schema`
(`src/schema.rs` lines 54-66): the wire-format key of each property and its
required JSON type. -/
def defaultSchemaProps : List (String × String) :=
  [("timestamp", "string"), ("level", "string"), ("message", "string"),
   ("metadata", "object"), ("service", "string"), ("trace_id", "string")]

/-- The `required` list of the default schema. -/
def defaultSchemaRequired : List String :=
  ["timestamp", "level", "message"]

/-- Draft-07 validation of a value against the default schema
(`SchemaValidator::validate`, lines 73-80, through the `jsonschema` crate):
the value must be an object, each `required` key must be present, and each
present key named in `properties` must have the declared type. (`format`
annotations are not modelled; the inputs considered here carry well-formed
date-time strings, so they do not decide any claim.) -/
def validateDefault (v : Json) : Bool :=
  match v with
  | .obj kvs =>
    defaultSchemaRequired.all (fun k => (lookupKey kvs k).isSome) &&
    defaultSchemaProps.all (fun p =>
      match lookupKey kvs p.1 with
      | none => true
      | some x => typeOk p.2 x)
  | _ => false

/-- serde's derived `Deserialize` for `LogEntry` applied to a JSON value
(`serde_json::from_value`, the projection step of the slow path,
`src/schema.rs` line 94). Because of `rename_all = "camelCase"`, every field
is looked up under its `serdeKey`. Required `String` fields fail when absent
or mistyped; `Option` fields are `none` when absent or `null`; unknown keys
are ignored (serde's default). -/
def deserializeLogEntry (v : Json) : Except String LogEntry :=
  match v with
  | .obj kvs =>
    let field := fun (name : String) => lookupKey kvs (serdeKey name)
    match field "timestamp", field "level", field "message" with
    | some (.str ts), some (.str lv), some (.str ms) =>
      let optStr := fun (x : Option Json) =>
        match x with
        | none => Except.ok (none : Option String)
        | some .null => Except.ok none
        | some (.str s) => Except.ok (some s)
        | some _ => Except.error "invalid type for optional string field"
      match optStr (field "service"), optStr (field "trace_id") with
      | .ok sv, .ok tr =>
        let md : Option Json :=
          match field "metadata" with
          | none => none
          | some .null => none
          | some j => some j
        .ok { timestamp := ts, level := lv, message := ms,
              service := sv, trace_id := tr, metadata := md }
      | .error e, _ => .error e
      | _, .error e => .error e
    | _, _, _ => .error "missing or mistyped required field"
  | _ => .error "not an object"

/-- The slow path of `SchemaValidator::parse_fast` (lines 91-96), for a
validator compiled from the default-schema document with the fast path
disabled (as `from_file` constructs it): the payload — already decoded from
bytes by `serde_json::from_slice` — is schema-validated, then projected into
`LogEntry`. -/
def parseFastSlow (v : Json) : Except String LogEntry :=
  if validateDefault v then deserializeLogEntry v
  else .error "validation failed"

/-! ## Helper lemmas: storage engine -/

/-- All six column vectors built by the conversion loop have one entry per
record. -/
lemma buildColumns_lengths (ext : Ext) : ∀ logs : List LogEntry,
    (buildColumns ext logs).timestamps.length = logs.length ∧
    (buildColumns ext logs).levels.length = logs.length ∧
    (buildColumns ext logs).messages.length = logs.length ∧
    (buildColumns ext logs).services.length = logs.length ∧
    (buildColumns ext logs).trace_ids.length = logs.length ∧
    (buildColumns ext logs).metadatas.length = logs.length
  | [] => by simp [buildColumns]
  | log :: rest => by
    have ih := buildColumns_lengths ext rest
    simp [buildColumns, ih.1, ih.2.1, ih.2.2.1, ih.2.2.2.1, ih.2.2.2.2.1,
      ih.2.2.2.2.2]

/-- `logs_to_record_batch` never fails: the columns always agree in length,
so `RecordBatch::try_new` succeeds with one row per record. -/
lemma logsToRecordBatch_ok (ext : Ext) (logs : List LogEntry) :
    logsToRecordBatch ext logs = .ok ⟨logs.length, buildColumns ext logs⟩ := by
  have h := buildColumns_lengths ext logs
  simp [logsToRecordBatch, RecordBatch.tryNew, h.1, h.2.1, h.2.2.1,
    h.2.2.2.1, h.2.2.2.2.1, h.2.2.2.2.2]

/-- `flush` on an empty batch is the early return of line 69-71. -/
lemma flush_empty (ext : Ext) (o : FsOracle) (e : StorageEngine) (w : World)
    (h : e.current_batch = []) :
    StorageEngine.flush ext o e w = (.ok (), e, w) := by
  simp [StorageEngine.flush, h]

/-- Closed form of `flush` on a nonempty batch, by the outcome of each I/O
step: the file counter is always advanced; the batch is cleared only on full
success; a failure after `File::create` leaves an incomplete file on disk. -/
lemma flush_nonempty (ext : Ext) (o : FsOracle) (e : StorageEngine) (w : World)
    (h : e.current_batch ≠ []) :
    StorageEngine.flush ext o e w =
      (if o.createOk = false then
        (.error .createFile, { e with file_counter := e.file_counter + 1 }, w)
      else if o.writerOk = false then
        (.error .writerInit, { e with file_counter := e.file_counter + 1 },
         { w with fs := w.fs ++ [⟨e.file_counter, 0, false⟩] })
      else if o.writeOk = false then
        (.error .writeBatch, { e with file_counter := e.file_counter + 1 },
         { w with fs := w.fs ++ [⟨e.file_counter, 0, false⟩] })
      else if o.closeOk = false then
        (.error .finalize, { e with file_counter := e.file_counter + 1 },
         { w with fs := w.fs ++ [⟨e.file_counter, 0, false⟩] })
      else if o.metaOk = false then
        (.error .metaData, { e with file_counter := e.file_counter + 1 },
         { w with fs := w.fs ++ [⟨e.file_counter, e.current_batch.length, true⟩] })
      else
        (.ok (),
         { e with current_batch := [], current_file_path := none,
                  current_file_size := 0, file_counter := e.file_counter + 1 },
         { fs := w.fs ++ [⟨e.file_counter, e.current_batch.length, true⟩],
           metrics := w.metrics ++ [.writeLatency, .bytesProcessed o.fileSize] })) := by
  have hE : e.current_batch.isEmpty = false := by
    simpa [List.isEmpty_iff] using h
  rcases o with ⟨co, wo, wr, cl, mo, fz⟩
  cases co <;> cases wo <;> cases wr <;> cases cl <;> cases mo <;>
    simp [StorageEngine.flush, hE, StorageEngine.generateFilePath,
      logsToRecordBatch_ok, StorageEngine.writeRecordBatch]

/-- A flush whose every I/O step succeeds clears the batch and appends one
complete file whose row count is the batch length. -/
lemma flush_allOk (ext : Ext) (o : FsOracle) (e : StorageEngine) (w : World)
    (hok : o.allOk) (h : e.current_batch ≠ []) :
    StorageEngine.flush ext o e w =
      (.ok (),
       { e with current_batch := [], current_file_path := none,
                current_file_size := 0, file_counter := e.file_counter + 1 },
       { fs := w.fs ++ [⟨e.file_counter, e.current_batch.length, true⟩],
         metrics := w.metrics ++ [.writeLatency, .bytesProcessed o.fileSize] }) := by
  obtain ⟨h1, h2, h3, h4, h5⟩ := hok
  rw [flush_nonempty ext o e w h]
  simp [h1, h2, h3, h4, h5]

/-- The I/O oracle of a storage operation. -/
def StorageOp.oracleOf : StorageOp → FsOracle
  | .addLog _ o => o
  | .flushOp o => o

/-- Invariant preserved by every storage operation whose flushes all succeed
(batch size `B ≥ 1`): the configured batch size is unchanged, the buffered
batch stays strictly below `B`, and every file on disk is complete with at
most `B` rows. -/
lemma runOps_inv (ext : Ext) (B : Nat) (hB : 1 ≤ B) :
    ∀ (ops : List StorageOp) (e : StorageEngine) (w : World),
      e.batch_size = B → e.current_batch.length < B →
      (∀ f ∈ w.fs, f.complete = true ∧ f.rows ≤ B) →
      (∀ op ∈ ops, op.oracleOf.allOk) →
      (runOps ext ops e w).1.batch_size = B ∧
      (runOps ext ops e w).1.current_batch.length < B ∧
      (∀ f ∈ (runOps ext ops e w).2.fs, f.complete = true ∧ f.rows ≤ B)
  | [], e, w, hbs, hlen, hfs, _ => ⟨hbs, hlen, hfs⟩
  | .addLog log o :: rest, e, w, hbs, hlen, hfs, hok => by
    have hoOk : o.allOk := hok (.addLog log o) (by simp)
    have hrest : ∀ op ∈ rest, op.oracleOf.allOk := fun op hm =>
      hok op (by simp [hm])
    set e1 : StorageEngine :=
      { e with current_batch := e.current_batch ++ [log] } with he1
    have hlen1 : e1.current_batch.length = e.current_batch.length + 1 := by
      simp [he1]
    by_cases hfull : e1.current_batch.length ≥ e1.batch_size
    · have hne : e1.current_batch ≠ [] := by
        intro hnil
        rw [hnil] at hlen1
        simp at hlen1
      have hflush := flush_allOk ext o e1
        { w with metrics := w.metrics ++ [.ingestCount] } hoOk hne
      have hstep : runOps ext (.addLog log o :: rest) e w =
          runOps ext rest
            { e1 with current_batch := [], current_file_path := none,
                      current_file_size := 0,
                      file_counter := e1.file_counter + 1 }
            { fs := w.fs ++ [⟨e1.file_counter, e1.current_batch.length, true⟩],
              metrics := (w.metrics ++ [.ingestCount]) ++
                [.writeLatency, .bytesProcessed o.fileSize] } := by
        simp only [runOps, StorageEngine.addLog]
        rw [if_pos hfull, hflush]
      rw [hstep]
      refine runOps_inv ext B hB rest _ _ (by simp [he1, hbs]) (by simp; omega)
        ?_ hrest
      intro f hf
      simp at hf
      rcases hf with hf | hf
      · exact hfs f hf
      · subst hf
        refine ⟨rfl, ?_⟩
        simp [hlen1]
        omega
    · have hstep : runOps ext (.addLog log o :: rest) e w =
          runOps ext rest e1 { w with metrics := w.metrics ++ [.ingestCount] } := by
        simp only [runOps, StorageEngine.addLog]
        rw [if_neg hfull]
      rw [hstep]
      refine runOps_inv ext B hB rest _ _ (by simp [he1, hbs]) ?_ hfs hrest
      rw [hlen1]
      rw [he1] at hfull
      simp [hbs] at hfull
      omega
  | .flushOp o :: rest, e, w, hbs, hlen, hfs, hok => by
    have hoOk : o.allOk := hok (.flushOp o) (by simp)
    have hrest : ∀ op ∈ rest, op.oracleOf.allOk := fun op hm =>
      hok op (by simp [hm])
    by_cases hne : e.current_batch = []
    · have hstep : runOps ext (.flushOp o :: rest) e w = runOps ext rest e w := by
        simp only [runOps]
        rw [flush_empty ext o e w hne]
      rw [hstep]
      exact runOps_inv ext B hB rest e w hbs hlen hfs hrest
    · have hflush := flush_allOk ext o e w hoOk hne
      have hstep : runOps ext (.flushOp o :: rest) e w =
          runOps ext rest
            { e with current_batch := [], current_file_path := none,
                     current_file_size := 0,
                     file_counter := e.file_counter + 1 }
            { fs := w.fs ++ [⟨e.file_counter, e.current_batch.length, true⟩],
              metrics := w.metrics ++ [.writeLatency, .bytesProcessed o.fileSize] } := by
        simp only [runOps]
        rw [hflush]
      rw [hstep]
      refine runOps_inv ext B hB rest _ _ (by simp [hbs]) (by simp; omega) ?_ hrest
      intro f hf
      simp at hf
      rcases hf with hf | hf
      · exact hfs f hf
      · subst hf
        refine ⟨rfl, ?_⟩
        simp
        omega

/-! ## Concrete fixtures for witnesses and counterexamples -/

/-- External-call model used by concrete runs: the RFC-3339 parser always
fails (exercising the epoch-0 default) and metadata serializes to the empty
string. -/
def extC : Ext := ⟨fun _ => none, fun _ => ""⟩

/-- A concrete valid record. -/
def entry0 : LogEntry :=
  { timestamp := "2026-01-15T19:00:00Z", level := "info", message := "hi",
    service := none, trace_id := none, metadata := none }

/-- An oracle under which all I/O succeeds; the new file measures 7 bytes. -/
def oracleAllOk : FsOracle := ⟨true, true, true, true, true, 7⟩

/-- An oracle whose `writer.write` step fails (a mid-flush write error). -/
def oracleBadWrite : FsOracle := ⟨true, true, false, true, true, 0⟩

/-- An engine with batch size 1 holding one buffered record. -/
def engine1 : StorageEngine :=
  { batch_size := 1, current_batch := [entry0], current_file_path := none,
    current_file_size := 0, file_counter := 0 }

/-- An empty storage directory and no metric events. -/
def world0 : World := ⟨[], []⟩

/-! ## Claims about the storage engine -/

/-- C1, counterexample. The claim says a failed flush leaves the batch empty
(records lost). In the code every `?` in `flush` returns before
`current_batch.clear()` runs, so after a mid-flush write error the record is
still in the batch: here `flush` returns the `writeBatch` error while the
batch still holds its one record. -/
theorem C1_counterexample :
    (StorageEngine.flush extC oracleBadWrite engine1 world0).1 =
      .error .writeBatch ∧
    (StorageEngine.flush extC oracleBadWrite engine1 world0).2.1.current_batch.length = 1 :=
  ⟨rfl, by decide⟩

/-- C1, amended: if the storage engine's flush fails, the error is propagated
to the caller and the in-memory batch is retained unchanged (it is cleared
only on success), so the records of that batch are kept for the next flush
attempt. -/
theorem C1_flush_error_retains_batch (ext : Ext) (o : FsOracle)
    (e : StorageEngine) (w : World) (err : StorageErr) (e2 : StorageEngine)
    (w2 : World)
    (hf : StorageEngine.flush ext o e w = (.error err, e2, w2)) :
    e2.current_batch = e.current_batch ∧ e2.batch_size = e.batch_size := by
  by_cases h : e.current_batch = []
  · rw [flush_empty ext o e w h] at hf
    exact absurd (congrArg (fun p => p.1) hf) (by simp)
  · rw [flush_nonempty ext o e w h] at hf
    rcases o with ⟨co, wo, wr, cl, mo, fz⟩
    cases co <;> cases wo <;> cases wr <;> cases cl <;> cases mo <;>
      simp_all <;> (obtain ⟨-, he, -⟩ := hf) <;> rw [← he] <;>
      exact ⟨rfl, rfl⟩

/-- Witness for C1: the amended fact at the concrete failing flush. -/
theorem C1_witness :
    StorageEngine.flush extC oracleBadWrite engine1 world0 =
      (.error .writeBatch,
       ⟨1, [entry0], none, 0, 1⟩, ⟨[⟨0, 0, false⟩], []⟩) ∧
    (⟨1, [entry0], none, 0, 1⟩ : StorageEngine).current_batch =
      engine1.current_batch :=
  ⟨rfl,
   (C1_flush_error_retains_batch extC oracleBadWrite engine1 world0
     .writeBatch ⟨1, [entry0], none, 0, 1⟩ ⟨[⟨0, 0, false⟩], []⟩ rfl).1⟩

/-- C5, counterexample. The claim says partial writes never leak. In the code
`write_record_batch` performs no cleanup on error, so when `writer.write`
fails after `File::create` succeeded, the created, incomplete file stays on
disk: after this failing flush the directory holds exactly one file and it
is not a complete columnar file. -/
theorem C5_counterexample :
    (StorageEngine.flush extC oracleBadWrite engine1 world0).1 =
      .error .writeBatch ∧
    (StorageEngine.flush extC oracleBadWrite engine1 world0).2.2.fs =
      [⟨0, 0, false⟩] ∧
    (FsFile.mk 0 0 false).complete = false :=
  ⟨rfl, by decide, rfl⟩

/-- C5, amended: a successful flush adds at most one file and that file is
complete; but when a write, writer-init or finalize step fails after the
file was created, the flush errors and leaves that incomplete file on disk
(partial writes do leak on mid-flush failure). -/
theorem C5_partial_file_leaks (ext : Ext) (o : FsOracle) (e : StorageEngine)
    (w : World) :
    (∀ u e2 w2, StorageEngine.flush ext o e w = (.ok u, e2, w2) →
      w2.fs = w.fs ∨ ∃ r, w2.fs = w.fs ++ [⟨e.file_counter, r, true⟩]) ∧
    (e.current_batch ≠ [] → o.createOk = true →
      (o.writerOk = false ∨ o.writeOk = false ∨ o.closeOk = false) →
      ∃ err e2 w2, StorageEngine.flush ext o e w = (.error err, e2, w2) ∧
        w2.fs = w.fs ++ [⟨e.file_counter, 0, false⟩]) := by
  constructor
  · intro u e2 w2 hf
    by_cases h : e.current_batch = []
    · have hw : w = w2 := congrArg (fun p => p.2.2) (flush_empty ext o e w h ▸ hf)
      exact Or.inl (by rw [← hw])
    · rw [flush_nonempty ext o e w h] at hf
      rcases o with ⟨co, wo, wr, cl, mo, fz⟩
      cases co <;> cases wo <;> cases wr <;> cases cl <;> cases mo <;>
        simp_all
      obtain ⟨-, hw⟩ := hf
      rw [← hw]
      exact Or.inr ⟨e.current_batch.length, rfl⟩
  · intro hne hco hbad
    rw [flush_nonempty ext o e w hne]
    rcases o with ⟨co, wo, wr, cl, mo, fz⟩
    simp only at hco
    subst hco
    cases wo
    · exact ⟨.writerInit, { e with file_counter := e.file_counter + 1 },
        { w with fs := w.fs ++ [⟨e.file_counter, 0, false⟩] }, by simp, rfl⟩
    · cases wr
      · exact ⟨.writeBatch, { e with file_counter := e.file_counter + 1 },
          { w with fs := w.fs ++ [⟨e.file_counter, 0, false⟩] }, by simp, rfl⟩
      · cases cl
        · exact ⟨.finalize, { e with file_counter := e.file_counter + 1 },
            { w with fs := w.fs ++ [⟨e.file_counter, 0, false⟩] }, by simp, rfl⟩
        · simp_all

/-- Witness for C5: both amended conjuncts at concrete flushes — the all-ok
flush leaves a complete file, the failing-write flush leaves the incomplete
file `⟨0, 0, false⟩`. -/
theorem C5_witness :
    ((⟨[⟨0, 1, true⟩], [.writeLatency, .bytesProcessed 7]⟩ : World).fs =
        world0.fs ∨
      ∃ r, (⟨[⟨0, 1, true⟩], [.writeLatency, .bytesProcessed 7]⟩ : World).fs =
        world0.fs ++ [⟨engine1.file_counter, r, true⟩]) ∧
    (∃ err e2 w2,
      StorageEngine.flush extC oracleBadWrite engine1 world0 =
        (.error err, e2, w2) ∧
      w2.fs = world0.fs ++ [⟨engine1.file_counter, 0, false⟩]) :=
  ⟨(C5_partial_file_leaks extC oracleAllOk engine1 world0).1 ()
      ⟨1, [], none, 0, 1⟩ ⟨[⟨0, 1, true⟩], [.writeLatency, .bytesProcessed 7]⟩
      rfl,
   (C5_partial_file_leaks extC oracleBadWrite engine1 world0).2
      (by simp [engine1]) rfl (Or.inr (Or.inl rfl))⟩

/-- C6: flush is idempotent — on an empty batch it is a no-op returning the
engine and the world (files and metric counters) unchanged, and any flush
that returns `Ok` leaves a state in which an immediately following flush is
such a no-op, producing no new file. -/
theorem C6_flush_idempotent (ext : Ext) (o o2 : FsOracle) (e : StorageEngine)
    (w : World) :
    (e.current_batch = [] → StorageEngine.flush ext o e w = (.ok (), e, w)) ∧
    (∀ u e2 w2, StorageEngine.flush ext o e w = (.ok u, e2, w2) →
      StorageEngine.flush ext o2 e2 w2 = (.ok (), e2, w2)) := by
  constructor
  · exact flush_empty ext o e w
  · intro u e2 w2 hf
    have h2 : e2.current_batch = [] := by
      by_cases h : e.current_batch = []
      · have he : e = e2 := congrArg (fun p => p.2.1) (flush_empty ext o e w h ▸ hf)
        rw [← he]
        exact h
      · rw [flush_nonempty ext o e w h] at hf
        rcases o with ⟨co, wo, wr, cl, mo, fz⟩
        cases co <;> cases wo <;> cases wr <;> cases cl <;> cases mo <;>
          simp_all
        exact congrArg (fun e : StorageEngine => e.current_batch) hf.1.symm
    exact flush_empty ext o2 e2 w2 h2

/-- Witness for C6: the empty-batch no-op at a fresh engine, and the no-op of
a second flush (under an oracle that would fail every I/O step) right after
the concrete successful flush of `engine1`. -/
theorem C6_witness :
    StorageEngine.flush extC oracleAllOk (.new 1) world0 =
      (.ok (), .new 1, world0) ∧
    StorageEngine.flush extC oracleBadWrite (⟨1, [], none, 0, 1⟩ : StorageEngine)
      ⟨[⟨0, 1, true⟩], [.writeLatency, .bytesProcessed 7]⟩ =
      (.ok (), ⟨1, [], none, 0, 1⟩,
       ⟨[⟨0, 1, true⟩], [.writeLatency, .bytesProcessed 7]⟩) :=
  ⟨(C6_flush_idempotent extC oracleAllOk oracleAllOk (.new 1) world0).1 rfl,
   (C6_flush_idempotent extC oracleAllOk oracleBadWrite engine1 world0).2 ()
     ⟨1, [], none, 0, 1⟩ ⟨[⟨0, 1, true⟩], [.writeLatency, .bytesProcessed 7]⟩
     rfl⟩

/-- C7, counterexample. The claim says the batch length never exceeds `B`
after any sequence of `add_log`/`flush` operations. With `B = 1` and a
storage fault, the first `add_log` triggers a flush that fails and (per the
code) retains the record; the second `add_log` then leaves two records
buffered — more than `B`. -/
theorem C7_counterexample :
    (runOps extC [.addLog entry0 oracleBadWrite, .addLog entry0 oracleBadWrite]
      (.new 1) world0).1.current_batch.length = 2 ∧
    (StorageEngine.new 1).batch_size = 1 :=
  ⟨by decide, rfl⟩

/-- C7, amended: `add_log` appends the record and invokes `flush` before
returning once the batch length reaches `B`; provided `B ≥ 1` and every
flush performed in the run succeeds, the batch length never exceeds `B`
after any sequence of `add_log` and `flush` operations, and every file
written has at most `B` rows. -/
theorem C7_batch_bounded (ext : Ext) (ops : List StorageOp) (B : Nat)
    (hB : 1 ≤ B) (hok : ∀ op ∈ ops, op.oracleOf.allOk) :
    (runOps ext ops (.new B) world0).1.current_batch.length ≤ B ∧
    ∀ f ∈ (runOps ext ops (.new B) world0).2.fs,
      f.complete = true ∧ f.rows ≤ B := by
  have h := runOps_inv ext B hB ops (.new B) world0 rfl
    (by simp [StorageEngine.new]; omega) (by simp [world0]) hok
  exact ⟨Nat.le_of_lt h.2.1, h.2.2⟩

/-- Witness for C7: two healthy `add_log` calls at `B = 1` keep the batch
within bound and write only complete one-row files. -/
theorem C7_witness :
    (runOps extC [.addLog entry0 oracleAllOk, .addLog entry0 oracleAllOk]
      (.new 1) world0).1.current_batch.length ≤ 1 ∧
    ∀ f ∈ (runOps extC [.addLog entry0 oracleAllOk, .addLog entry0 oracleAllOk]
      (.new 1) world0).2.fs, f.complete = true ∧ f.rows ≤ 1 :=
  C7_batch_bounded extC [.addLog entry0 oracleAllOk, .addLog entry0 oracleAllOk]
    1 (Nat.le_refl 1) (by decide)

/-- C9: column construction never raises an error and produces exactly one
row per record, and the timestamp column holds, for each record in order,
the RFC-3339 parse of its timestamp string in epoch milliseconds, or 0 when
parsing fails (the parser itself — chrono's `parse_from_rfc3339` mapped
through `timestamp_millis` — is the abstract parameter
`ext.parseRfc3339Millis`). -/
theorem C9_timestamps_and_rowcount (ext : Ext) (logs : List LogEntry) :
    logsToRecordBatch ext logs = .ok ⟨logs.length, buildColumns ext logs⟩ ∧
    (buildColumns ext logs).timestamps =
      logs.map (fun l => (ext.parseRfc3339Millis l.timestamp).getD 0) := by
  refine ⟨logsToRecordBatch_ok ext logs, ?_⟩
  induction logs with
  | nil => simp [buildColumns]
  | cons l rest ih => simp [buildColumns, ih]

/-! ## Helper lemmas: frame reader -/

/-- The fuel of `drainF` is irrelevant once it covers the buffer length
(every iteration consumes at least 4 bytes). -/
lemma drainF_congr : ∀ (f g : Nat) (acc : List Nat),
    acc.length ≤ f → acc.length ≤ g → drainF f acc = drainF g acc
  | 0, g, acc, hf, _ => by
    have hnil : acc = [] := List.length_eq_zero.mp (Nat.le_zero.mp hf)
    subst hnil
    cases g <;> simp [drainF]
  | _ + 1, 0, acc, _, hg => by
    have hnil : acc = [] := List.length_eq_zero.mp (Nat.le_zero.mp hg)
    subst hnil
    simp [drainF]
  | f + 1, g + 1, acc, hf, hg => by
    simp only [drainF]
    by_cases h4 : acc.length < 4
    · rw [if_pos h4, if_pos h4]
    · rw [if_neg h4, if_neg h4]
      by_cases hL : acc.length < 4 + be32 (acc.take 4)
      · rw [if_pos hL, if_pos hL]
      · rw [if_neg hL, if_neg hL]
        have h1 : (acc.drop (4 + be32 (acc.take 4))).length ≤ f := by
          rw [List.length_drop]
          omega
        have h2 : (acc.drop (4 + be32 (acc.take 4))).length ≤ g := by
          rw [List.length_drop]
          omega
        rw [drainF_congr f g _ h1 h2]

/-- `drain` on a buffer with no complete header. -/
lemma drain_short (acc : List Nat) (h : acc.length < 4) :
    drain acc = ([], acc) := by
  unfold drain
  cases hlen : acc.length with
  | zero => simp [drainF]
  | succ n => simp [drainF, h]

/-- `drain` on a buffer whose first frame is incomplete. -/
lemma drain_incomplete (acc : List Nat) (h4 : 4 ≤ acc.length)
    (hL : acc.length < 4 + be32 (acc.take 4)) :
    drain acc = ([], acc) := by
  unfold drain
  obtain ⟨n, hn⟩ : ∃ n, acc.length = n + 1 := ⟨acc.length - 1, by omega⟩
  rw [hn]
  simp only [drainF]
  rw [if_neg (by omega), if_pos hL]

/-- `drain` consumes one complete frame and recurses. -/
lemma drain_step (acc : List Nat)
    (hL : 4 + be32 (acc.take 4) ≤ acc.length) :
    drain acc =
      ((acc.drop 4).take (be32 (acc.take 4)) ::
         (drain (acc.drop (4 + be32 (acc.take 4)))).1,
       (drain (acc.drop (4 + be32 (acc.take 4)))).2) := by
  conv_lhs => rw [drain]
  obtain ⟨n, hn⟩ : ∃ n, acc.length = n + 1 := ⟨acc.length - 1, by omega⟩
  rw [hn]
  simp only [drainF]
  rw [if_neg (by omega), if_neg (by omega)]
  have hrec : drainF n (acc.drop (4 + be32 (acc.take 4))) =
      drain (acc.drop (4 + be32 (acc.take 4))) := by
    unfold drain
    refine drainF_congr _ _ _ ?_ ?_ <;> rw [List.length_drop] <;> omega
  rw [hrec]

/-- The fuel of the inner loop is irrelevant once it covers the accumulator
length. -/
lemma processFramesF_congr (parse : List Nat → Option LogEntry)
    (oracle : Nat → SendResult) : ∀ (f g : Nat) (s : ConnState) (idx : Nat),
    s.accumulator.length ≤ f → s.accumulator.length ≤ g →
    processFramesF parse oracle f s idx = processFramesF parse oracle g s idx
  | 0, g, s, idx, hf, _ => by
    have hnil : s.accumulator = [] := List.length_eq_zero.mp (Nat.le_zero.mp hf)
    cases g <;> simp [processFramesF, hnil]
  | _ + 1, 0, s, idx, _, hg => by
    have hnil : s.accumulator = [] := List.length_eq_zero.mp (Nat.le_zero.mp hg)
    simp [processFramesF, hnil]
  | f + 1, g + 1, s, idx, hf, hg => by
    simp only [processFramesF]
    by_cases h4 : s.accumulator.length < 4
    · rw [if_pos h4, if_pos h4]
    · rw [if_neg h4, if_neg h4]
      by_cases hL : s.accumulator.length < 4 + be32 (s.accumulator.take 4)
      · rw [if_pos hL, if_pos hL]
      · rw [if_neg hL, if_neg hL]
        have hlen : (s.accumulator.drop
            (4 + be32 (s.accumulator.take 4))).length ≤ f ∧
            (s.accumulator.drop
              (4 + be32 (s.accumulator.take 4))).length ≤ g := by
          constructor <;> (rw [List.length_drop]; omega)
        cases hp : parse ((s.accumulator.drop 4).take (be32 (s.accumulator.take 4)))
        · simp only
          exact processFramesF_congr parse oracle f g _ idx
            (by simpa using hlen.1) (by simpa using hlen.2)
        · cases ho : oracle idx <;> simp only
          · exact processFramesF_congr parse oracle f g _ (idx + 1)
              (by simpa using hlen.1) (by simpa using hlen.2)
          · exact processFramesF_congr parse oracle f g _ (idx + 1)
              (by simpa using hlen.1) (by simpa using hlen.2)

/-- The inner loop on a buffer with no complete header: nothing to do. -/
lemma processFrames_short (parse : List Nat → Option LogEntry)
    (oracle : Nat → SendResult) (s : ConnState) (idx : Nat)
    (h : s.accumulator.length < 4) :
    processFrames parse oracle s idx = (s, idx) := by
  unfold processFrames
  cases hlen : s.accumulator.length with
  | zero => simp [processFramesF]
  | succ n => simp [processFramesF, h]

/-- The inner loop on a buffer whose first frame is incomplete: yield and
wait for more bytes. -/
lemma processFrames_incomplete (parse : List Nat → Option LogEntry)
    (oracle : Nat → SendResult) (s : ConnState) (idx : Nat)
    (h4 : 4 ≤ s.accumulator.length)
    (hL : s.accumulator.length < 4 + be32 (s.accumulator.take 4)) :
    processFrames parse oracle s idx = (s, idx) := by
  unfold processFrames
  obtain ⟨n, hn⟩ : ∃ n, s.accumulator.length = n + 1 :=
    ⟨s.accumulator.length - 1, by omega⟩
  rw [hn]
  simp only [processFramesF]
  rw [if_neg (by omega), if_pos hL]

/-- The inner loop consumes one complete frame: the payload is recorded and
handed to `parse_fast`, then the loop continues — except on a closed-queue
rejection, where the `break` ends only this inner loop. -/
lemma processFrames_step (parse : List Nat → Option LogEntry)
    (oracle : Nat → SendResult) (acc : List Nat) (m : List (List Nat))
    (me : List MetricEvent) (w idx : Nat)
    (hL : 4 + be32 (acc.take 4) ≤ acc.length) :
    processFrames parse oracle ⟨acc, m, me, w⟩ idx =
      (let L := be32 (acc.take 4)
       let msg := (acc.drop 4).take L
       let s1 : ConnState := ⟨acc.drop (4 + L), m ++ [msg], me, w⟩
       match parse msg with
       | none =>
         processFrames parse oracle { s1 with invalidWarns := w + 1 } idx
       | some _ =>
         match oracle idx with
         | .ok => processFrames parse oracle s1 (idx + 1)
         | .full =>
           processFrames parse oracle
             { s1 with metrics := me ++ [.droppedMessages] } (idx + 1)
         | .closed => (s1, idx + 1)) := by
  conv_lhs => rw [processFrames]
  obtain ⟨n, hn⟩ : ∃ n, acc.length = n + 1 := ⟨acc.length - 1, by omega⟩
  simp only [ConnState.accumulator] at hn ⊢
  rw [hn]
  simp only [processFramesF]
  rw [if_neg (by omega), if_neg (by omega)]
  have hrec : ∀ (m2 : List (List Nat)) (me2 : List MetricEvent) (w2 idx2 : Nat),
      processFramesF parse oracle n
        ⟨acc.drop (4 + be32 (acc.take 4)), m2, me2, w2⟩ idx2 =
      processFrames parse oracle
        ⟨acc.drop (4 + be32 (acc.take 4)), m2, me2, w2⟩ idx2 := by
    intro m2 me2 w2 idx2
    unfold processFrames
    refine processFramesF_congr parse oracle _ _ _ _ ?_ ?_ <;>
      simp only [ConnState.accumulator] <;> rw [List.length_drop] <;> omega
  cases hp : parse ((acc.drop 4).take (be32 (acc.take 4))) <;>
    simp only [hp, hrec]

/-- Draining the leftover of a drain extracts nothing further: the leftover
is always an incomplete suffix. -/
lemma drain_leftover_aux : ∀ (n : Nat) (acc : List Nat), acc.length ≤ n →
    drain ((drain acc).2) = ([], (drain acc).2)
  | 0, acc, h => by
    rw [drain_short acc (by omega), drain_short acc (by omega)]
  | n + 1, acc, h => by
    by_cases h4 : acc.length < 4
    · rw [drain_short acc h4, drain_short acc h4]
    · by_cases hL : acc.length < 4 + be32 (acc.take 4)
      · rw [drain_incomplete acc (by omega) hL,
          drain_incomplete acc (by omega) hL]
      · rw [drain_step acc (by omega)]
        exact drain_leftover_aux n (acc.drop (4 + be32 (acc.take 4)))
          (by rw [List.length_drop]; omega)

/-- Draining the leftover of a drain extracts nothing further. -/
lemma drain_leftover (acc : List Nat) :
    drain ((drain acc).2) = ([], (drain acc).2) :=
  drain_leftover_aux acc.length acc (Nat.le_refl _)

/-- Streaming decomposition: draining `acc ++ c` first yields the frames of
`acc`, then continues on the leftover of `acc` extended by `c`. -/
lemma drain_append_aux : ∀ (n : Nat) (acc c : List Nat), acc.length ≤ n →
    drain (acc ++ c) =
      ((drain acc).1 ++ (drain ((drain acc).2 ++ c)).1,
       (drain ((drain acc).2 ++ c)).2)
  | 0, acc, c, h => by
    rw [drain_short acc (by omega)]
    simp
  | n + 1, acc, c, h => by
    by_cases h4 : acc.length < 4
    · rw [drain_short acc h4]
      simp
    · by_cases hL : acc.length < 4 + be32 (acc.take 4)
      · rw [drain_incomplete acc (by omega) hL]
        simp
      · have hstep := drain_step acc (by omega)
        have htake : (acc ++ c).take 4 = acc.take 4 :=
          List.take_append_of_le_length (by omega)
        have hfull : 4 + be32 ((acc ++ c).take 4) ≤ (acc ++ c).length := by
          rw [htake, List.length_append]
          omega
        have hmsg : ((acc ++ c).drop 4).take (be32 ((acc ++ c).take 4)) =
            (acc.drop 4).take (be32 (acc.take 4)) := by
          rw [htake, List.drop_append_of_le_length (by omega),
            List.take_append_of_le_length (by rw [List.length_drop]; omega)]
        have hdrop : (acc ++ c).drop (4 + be32 ((acc ++ c).take 4)) =
            acc.drop (4 + be32 (acc.take 4)) ++ c := by
          rw [htake, List.drop_append_of_le_length (by omega)]
        have hstep2 := drain_step (acc ++ c) hfull
        rw [hmsg, hdrop] at hstep2
        have hih := drain_append_aux n (acc.drop (4 + be32 (acc.take 4))) c
          (by rw [List.length_drop]; omega)
        rw [hstep2, hstep, hih]
        simp

/-- Streaming decomposition of `drain` over concatenation. -/
lemma drain_append (acc c : List Nat) :
    drain (acc ++ c) =
      ((drain acc).1 ++ (drain ((drain acc).2 ++ c)).1,
       (drain ((drain acc).2 ++ c)).2) :=
  drain_append_aux acc.length acc c (Nat.le_refl _)

/-- The spec algorithm is fuel-irrelevant once the fuel covers the buffer. -/
lemma frameReaderSpecF_congr : ∀ (f g : Nat) (a : List Nat),
    a.length ≤ f → a.length ≤ g → frameReaderSpecF f a = frameReaderSpecF g a
  | 0, g, a, hf, _ => by
    have hnil : a = [] := List.length_eq_zero.mp (Nat.le_zero.mp hf)
    subst hnil
    cases g <;> simp [frameReaderSpecF]
  | _ + 1, 0, a, _, hg => by
    have hnil : a = [] := List.length_eq_zero.mp (Nat.le_zero.mp hg)
    subst hnil
    simp [frameReaderSpecF]
  | f + 1, g + 1, a, hf, hg => by
    simp only [frameReaderSpecF]
    by_cases h4 : a.length < 4
    · rw [if_pos h4, if_pos h4]
    · rw [if_neg h4, if_neg h4]
      by_cases hL : a.length < 4 + be32 (a.take 4)
      · rw [if_pos hL, if_pos hL]
      · rw [if_neg hL, if_neg hL]
        rw [frameReaderSpecF_congr f g _
          (by rw [List.length_drop, List.length_drop]; omega)
          (by rw [List.length_drop, List.length_drop]; omega)]

/-- The code's frame extraction is the spec's algorithm, word for word. -/
lemma drain_eq_frameReaderSpec_aux : ∀ (n : Nat) (acc : List Nat),
    acc.length ≤ n → drain acc = frameReaderSpec acc
  | 0, acc, h => by
    have h4 : acc.length < 4 := by omega
    rw [drain_short acc h4]
    unfold frameReaderSpec
    cases hlen : acc.length with
    | zero => simp [frameReaderSpecF]
    | succ k => simp [frameReaderSpecF, h4]
  | n + 1, acc, h => by
    by_cases h4 : acc.length < 4
    · rw [drain_short acc h4]
      unfold frameReaderSpec
      cases hlen : acc.length with
      | zero => simp [frameReaderSpecF]
      | succ k => simp [frameReaderSpecF, h4]
    · by_cases hL : acc.length < 4 + be32 (acc.take 4)
      · rw [drain_incomplete acc (by omega) hL]
        unfold frameReaderSpec
        obtain ⟨k, hk⟩ : ∃ k, acc.length = k + 1 := ⟨acc.length - 1, by omega⟩
        rw [hk]
        simp only [frameReaderSpecF]
        rw [if_neg (by omega), if_pos hL]
      · rw [drain_step acc (by omega)]
        unfold frameReaderSpec
        obtain ⟨k, hk⟩ : ∃ k, acc.length = k + 1 := ⟨acc.length - 1, by omega⟩
        rw [hk]
        simp only [frameReaderSpecF]
        rw [if_neg (by omega), if_neg (by omega)]
        have hdd : (acc.drop 4).drop (be32 (acc.take 4)) =
            acc.drop (4 + be32 (acc.take 4)) := by
          rw [List.drop_drop]
        have hrec : frameReaderSpecF k ((acc.drop 4).drop (be32 (acc.take 4))) =
            frameReaderSpec (acc.drop (4 + be32 (acc.take 4))) := by
          rw [hdd]
          unfold frameReaderSpec
          refine frameReaderSpecF_congr _ _ _ ?_ ?_ <;>
            rw [List.length_drop] <;> omega
        rw [hrec, drain_eq_frameReaderSpec_aux n (acc.drop (4 + be32 (acc.take 4)))
          (by rw [List.length_drop]; omega)]

/-- The code's frame extraction equals the spec's framing algorithm. -/
lemma drain_eq_frameReaderSpec (acc : List Nat) :
    drain acc = frameReaderSpec acc :=
  drain_eq_frameReaderSpec_aux acc.length acc (Nat.le_refl _)

/-- While the queue is not closed, the inner loop consumes exactly the
drainable frames: the payloads it hands to the parser are `drain`'s messages
and the leftover accumulator is `drain`'s leftover. -/
lemma processFrames_no_closed_aux (parse : List Nat → Option LogEntry)
    (oracle : Nat → SendResult) (hcl : ∀ i, oracle i ≠ .closed) :
    ∀ (n : Nat) (acc : List Nat) (m : List (List Nat))
      (me : List MetricEvent) (w idx : Nat), acc.length ≤ n →
      ((processFrames parse oracle ⟨acc, m, me, w⟩ idx).1).messages =
        m ++ (drain acc).1 ∧
      ((processFrames parse oracle ⟨acc, m, me, w⟩ idx).1).accumulator =
        (drain acc).2
  | 0, acc, m, me, w, idx, h => by
    rw [processFrames_short parse oracle _ idx (by simpa using by omega),
      drain_short acc (by omega)]
    simp
  | n + 1, acc, m, me, w, idx, h => by
    by_cases h4 : acc.length < 4
    · rw [processFrames_short parse oracle _ idx (by simpa using h4),
        drain_short acc h4]
      simp
    · by_cases hL : acc.length < 4 + be32 (acc.take 4)
      · rw [processFrames_incomplete parse oracle _ idx (by simpa using by omega)
          (by simpa using hL), drain_incomplete acc (by omega) hL]
        simp
      · rw [processFrames_step parse oracle acc m me w idx (by omega),
          drain_step acc (by omega)]
        have hrlen : (acc.drop (4 + be32 (acc.take 4))).length ≤ n := by
          rw [List.length_drop]
          omega
        cases hp : parse ((acc.drop 4).take (be32 (acc.take 4)))
        · simp only [hp]
          have ih := processFrames_no_closed_aux parse oracle hcl n
            (acc.drop (4 + be32 (acc.take 4))) (m ++ [(acc.drop 4).take (be32 (acc.take 4))])
            me (w + 1) idx hrlen
          refine ⟨?_, ih.2⟩
          rw [ih.1]
          simp
        · cases ho : oracle idx
          · simp only [hp, ho]
            have ih := processFrames_no_closed_aux parse oracle hcl n
              (acc.drop (4 + be32 (acc.take 4)))
              (m ++ [(acc.drop 4).take (be32 (acc.take 4))]) me w (idx + 1) hrlen
            refine ⟨?_, ih.2⟩
            rw [ih.1]
            simp
          · simp only [hp, ho]
            have ih := processFrames_no_closed_aux parse oracle hcl n
              (acc.drop (4 + be32 (acc.take 4)))
              (m ++ [(acc.drop 4).take (be32 (acc.take 4))])
              (me ++ [.droppedMessages]) w (idx + 1) hrlen
            refine ⟨?_, ih.2⟩
            rw [ih.1]
            simp
          · exact absurd ho (hcl idx)

/-- `processFrames_no_closed_aux` in state form. -/
lemma processFrames_no_closed (parse : List Nat → Option LogEntry)
    (oracle : Nat → SendResult) (hcl : ∀ i, oracle i ≠ .closed)
    (s : ConnState) (idx : Nat) :
    ((processFrames parse oracle s idx).1).messages =
      s.messages ++ (drain s.accumulator).1 ∧
    ((processFrames parse oracle s idx).1).accumulator =
      (drain s.accumulator).2 := by
  obtain ⟨acc, m, me, w⟩ := s
  exact processFrames_no_closed_aux parse oracle hcl acc.length acc m me w idx
    (Nat.le_refl _)

/-- While the queue is not closed, the read loop's parsed payloads are the
frames of the whole received byte stream, regardless of how the stream was
split into reads. -/
lemma handleConn_messages (parse : List Nat → Option LogEntry)
    (oracle : Nat → SendResult) (hcl : ∀ i, oracle i ≠ .closed) :
    ∀ (chunks : List (List Nat)) (s : ConnState) (idx : Nat),
      drain s.accumulator = ([], s.accumulator) →
      ((handleConn parse oracle chunks s idx).1).messages =
        s.messages ++ (drain (s.accumulator ++ chunks.join)).1
  | [], s, idx, hs => by
    simp only [handleConn, List.join_nil, List.append_nil]
    rw [hs]
    simp
  | c :: rest, s, idx, hs => by
    simp only [handleConn, List.join_cons]
    have hpf := processFrames_no_closed parse oracle hcl
      { s with accumulator := s.accumulator ++ c } idx
    simp only at hpf
    have hleft : drain ((processFrames parse oracle
        { s with accumulator := s.accumulator ++ c } idx).1).accumulator =
        ([], ((processFrames parse oracle
          { s with accumulator := s.accumulator ++ c } idx).1).accumulator) := by
      rw [hpf.2]
      exact drain_leftover (s.accumulator ++ c)
    have hih := handleConn_messages parse oracle hcl rest
      (processFrames parse oracle
        { s with accumulator := s.accumulator ++ c } idx).1
      (processFrames parse oracle
        { s with accumulator := s.accumulator ++ c } idx).2 hleft
    rw [hih, hpf.1, hpf.2, ← List.append_assoc s.accumulator c rest.join,
      drain_append (s.accumulator ++ c) rest.join]
    simp

/-- The four wire bytes of a 32-bit length decode back to it. -/
lemma be32_be32Bytes (L : Nat) (h : L < 2 ^ 32) : be32 (be32Bytes L) = L := by
  norm_num [be32Bytes, be32]
  omega

/-- One well-formed frame at the head of the accumulator is consumed whole:
the payload is recorded and parsed, and the loop proceeds on the rest of the
buffer — except that a closed-queue rejection stops only the inner loop. -/
lemma processFrames_frame (parse : List Nat → Option LogEntry)
    (oracle : Nat → SendResult) (msg rest : List Nat) (m : List (List Nat))
    (me : List MetricEvent) (w idx : Nat) (hlen : msg.length < 2 ^ 32) :
    processFrames parse oracle
      ⟨be32Bytes msg.length ++ (msg ++ rest), m, me, w⟩ idx =
      (match parse msg with
       | none => processFrames parse oracle ⟨rest, m ++ [msg], me, w + 1⟩ idx
       | some _ =>
         match oracle idx with
         | .ok => processFrames parse oracle ⟨rest, m ++ [msg], me, w⟩ (idx + 1)
         | .full =>
           processFrames parse oracle
             ⟨rest, m ++ [msg], me ++ [.droppedMessages], w⟩ (idx + 1)
         | .closed => (⟨rest, m ++ [msg], me, w⟩, idx + 1)) := by
  have hlen4 : (be32Bytes msg.length).length = 4 := by simp [be32Bytes]
  have htake : (be32Bytes msg.length ++ (msg ++ rest)).take 4 =
      be32Bytes msg.length := by
    rw [List.take_append_of_le_length (by omega)]
    rw [← hlen4, List.take_length]
  have hbe : be32 ((be32Bytes msg.length ++ (msg ++ rest)).take 4) =
      msg.length := by
    rw [htake]
    exact be32_be32Bytes msg.length hlen
  have hdrop4 : (be32Bytes msg.length ++ (msg ++ rest)).drop 4 = msg ++ rest := by
    rw [List.drop_append_of_le_length (by omega), ← hlen4, List.drop_length]
    simp
  have hmsg : ((be32Bytes msg.length ++ (msg ++ rest)).drop 4).take
      msg.length = msg := by
    rw [hdrop4, List.take_append_of_le_length (Nat.le_refl _),
      List.take_length]
  have hdropAll : (be32Bytes msg.length ++ (msg ++ rest)).drop
      (4 + msg.length) = rest := by
    rw [← List.drop_drop, hdrop4,
      List.drop_append_of_le_length (Nat.le_refl _), List.drop_length]
    simp
  have hL : 4 + be32 ((be32Bytes msg.length ++ (msg ++ rest)).take 4) ≤
      (be32Bytes msg.length ++ (msg ++ rest)).length := by
    rw [hbe, List.length_append, List.length_append, hlen4]
    omega
  rw [processFrames_step parse oracle _ m me w idx hL]
  simp only [hbe, hmsg, hdropAll]

/-! ## Claims about the frame reader and connection handler -/

/-- A parser that accepts every payload as the fixed record `entry0`
(the environment where every frame is valid). -/
def parseSome : List Nat → Option LogEntry := fun _ => some entry0

/-- A parser that rejects every payload (every frame is invalid JSON). -/
def parseNone : List Nat → Option LogEntry := fun _ => none

/-- A queue that accepts every `try_send`. -/
def oracleOk : Nat → SendResult := fun _ => .ok

/-- A queue that is closed: every `try_send` is rejected with `Closed`. -/
def oracleClosed : Nat → SendResult := fun _ => .closed

/-- C2: the spec says a closed-queue rejection terminates the handler. In the
code the `Err(_) => break` of line 198 exits only the inner frame loop; the
outer read loop keeps reading. At the failing input — a closed queue and two
one-byte frames arriving in two reads — the handler goes on to parse the
second frame after the first enqueue was rejected as closed, instead of
returning: both payloads appear in the parsed-message log. -/
theorem C2_handler_reads_on_after_closed :
    ((handleConn parseSome oracleClosed [[0, 0, 0, 1, 65], [0, 0, 0, 1, 66]]
      ConnState.init 0).1).messages = [[65], [66]] := by
  decide

/-- C3, counterexample. The claim says a parse failure increments a failure
counter. The model records every `metrics::counter!` call the handler makes;
at a single invalid one-byte frame, the frame is parsed and discarded, the
`Invalid log` warning is logged, the connection keeps its (empty)
accumulator — but the metric-event log stays empty: no failure counter
exists in the code. -/
theorem C3_counterexample :
    ((handleConn parseNone oracleOk [[0, 0, 0, 1, 65]]
        ConnState.init 0).1).metrics = [] ∧
    ((handleConn parseNone oracleOk [[0, 0, 0, 1, 65]]
        ConnState.init 0).1).invalidWarns = 1 ∧
    ((handleConn parseNone oracleOk [[0, 0, 0, 1, 65]]
        ConnState.init 0).1).messages = [[65]] ∧
    ((handleConn parseNone oracleOk [[0, 0, 0, 1, 65]]
        ConnState.init 0).1).accumulator = [] := by
  decide

/-- An invalid frame is consumed whole: one warning, no metric event, and
the loop continues on the remaining bytes with the send index unchanged. -/
lemma processFrames_invalid_frame (parse : List Nat → Option LogEntry)
    (oracle : Nat → SendResult) (msg rest : List Nat) (m : List (List Nat))
    (me : List MetricEvent) (w idx : Nat) (hlen : msg.length < 2 ^ 32)
    (hp : parse msg = none) :
    processFrames parse oracle
      ⟨be32Bytes msg.length ++ (msg ++ rest), m, me, w⟩ idx =
      processFrames parse oracle ⟨rest, m ++ [msg], me, w + 1⟩ idx := by
  rw [processFrames_frame parse oracle msg rest m me w idx hlen]
  simp only [hp]

/-- C3, amended: for every frame whose payload fails to parse or validate,
the handler logs one `Invalid log` warning and discards the frame; no metric
counter is emitted, the connection is not torn down, and processing
continues on the remaining byte stream with the send index unchanged. -/
theorem C3_parse_failure_drops_frame (parse : List Nat → Option LogEntry)
    (oracle : Nat → SendResult) (msg rest : List Nat) (m : List (List Nat))
    (me : List MetricEvent) (w idx : Nat) (hlen : msg.length < 2 ^ 32)
    (hp : parse msg = none) :
    processFrames parse oracle
      ⟨be32Bytes msg.length ++ (msg ++ rest), m, me, w⟩ idx =
      processFrames parse oracle ⟨rest, m ++ [msg], me, w + 1⟩ idx :=
  processFrames_invalid_frame parse oracle msg rest m me w idx hlen hp

/-- Witness for C3: the amended fact at a concrete invalid one-byte frame. -/
theorem C3_witness :
    processFrames parseNone oracleOk ⟨[0, 0, 0, 1, 65], [], [], 0⟩ 0 =
      processFrames parseNone oracleOk ⟨[], [[65]], [], 1⟩ 0 ∧
    parseNone [65] = none ∧ ([65] : List Nat).length < 2 ^ 32 :=
  ⟨C3_parse_failure_drops_frame parseNone oracleOk [65] [] [] [] 0 0
    (by decide) rfl, rfl, by decide⟩

/-- A payload one byte over the suggested 16 MiB bound. -/
def bigPayload : List Nat := List.replicate 16777217 0

/-- The oversized payload's length, computed without unfolding the list. -/
lemma bigPayload_length : bigPayload.length = 16777217 := by
  unfold bigPayload
  exact List.length_replicate _ _

/-- C4, counterexample. The claim says any frame whose length exceeds the
16 MiB safety bound is rejected with an error fatal to the connection, the
event counted, the payload never buffered. The code performs no length
check: a complete frame of 16 MiB + 1 bytes is buffered whole, handed to
the parser as an ordinary message, no metric event is emitted, and the
handler continues — the next frame on the same connection is processed
too. -/
theorem C4_counterexample :
    16 * 2 ^ 20 < bigPayload.length ∧
    processFrames parseNone oracleOk
      ⟨be32Bytes bigPayload.length ++ (bigPayload ++ [0, 0, 0, 1, 66]),
       [], [], 0⟩ 0 =
      (⟨[], [bigPayload, [66]], [], 2⟩, 0) := by
  have hlen : bigPayload.length = 16777217 := bigPayload_length
  have h1 := processFrames_invalid_frame parseNone oracleOk bigPayload
    [0, 0, 0, 1, 66] [] [] 0 0 (by rw [hlen]; norm_num) rfl
  have h2 : ([0, 0, 0, 1, 66] : List Nat) =
      be32Bytes ([66] : List Nat).length ++ ([66] ++ []) := by
    decide
  have h3 := processFrames_invalid_frame parseNone oracleOk [66] []
    [bigPayload] [] 1 0 (by decide) rfl
  refine ⟨by rw [hlen]; norm_num, ?_⟩
  rw [h1]
  rw [show ([] : List (List Nat)) ++ [bigPayload] = [bigPayload] from rfl,
    Nat.zero_add, h2, h3]
  rw [processFrames_short parseNone oracleOk _ 0 (by simp)]
  rw [show ([bigPayload] : List (List Nat)) ++ [[66]] = [bigPayload, [66]]
      from rfl]

/-- C4, amended: the frame reader imposes no maximum frame length. A frame
whose 32-bit length exceeds the 16 MiB bound is treated exactly like any
other frame: once its `4 + L` bytes are buffered it is consumed, its payload
is handed to the parser, and the connection continues; no error, no close,
no counted event. -/
theorem C4_no_frame_size_limit (parse : List Nat → Option LogEntry)
    (oracle : Nat → SendResult) (msg rest : List Nat) (m : List (List Nat))
    (me : List MetricEvent) (w idx : Nat)
    (hbig : 16 * 2 ^ 20 < msg.length) (hlen : msg.length < 2 ^ 32) :
    processFrames parse oracle
      ⟨be32Bytes msg.length ++ (msg ++ rest), m, me, w⟩ idx =
      (match parse msg with
       | none => processFrames parse oracle ⟨rest, m ++ [msg], me, w + 1⟩ idx
       | some _ =>
         match oracle idx with
         | .ok => processFrames parse oracle ⟨rest, m ++ [msg], me, w⟩ (idx + 1)
         | .full =>
           processFrames parse oracle
             ⟨rest, m ++ [msg], me ++ [.droppedMessages], w⟩ (idx + 1)
         | .closed => (⟨rest, m ++ [msg], me, w⟩, idx + 1)) :=
  processFrames_frame parse oracle msg rest m me w idx hlen

/-- Witness for C4: the no-limit behavior at the concrete 16 MiB + 1 frame. -/
theorem C4_witness :
    16 * 2 ^ 20 < bigPayload.length ∧
    processFrames parseNone oracleOk
      ⟨be32Bytes bigPayload.length ++ (bigPayload ++ []), [], [], 0⟩ 0 =
      processFrames parseNone oracleOk ⟨[], [bigPayload], [], 1⟩ 0 := by
  have hlen : bigPayload.length = 16777217 := bigPayload_length
  refine ⟨by rw [hlen]; norm_num, ?_⟩
  have h := C4_no_frame_size_limit parseNone oracleOk bigPayload [] [] [] 0 0
    (by rw [hlen]; norm_num) (by rw [hlen]; norm_num)
  exact h

/-- C8: the connection handler implements the spec's length-prefixed framing
algorithm exactly. While the queue is not closed, the sequence of payloads
the handler extracts and hands to the parser equals the spec algorithm
(`frameReaderSpec`, transcribed from §4.3) applied to the concatenation of
all reads — so it is independent of how the transport split the byte stream
into reads, frames are reassembled across read boundaries, and an `L = 0`
frame yields an empty payload. -/
theorem C8_split_invariance (parse : List Nat → Option LogEntry)
    (oracle : Nat → SendResult) (hcl : ∀ i, oracle i ≠ .closed)
    (chunks : List (List Nat)) :
    ((handleConn parse oracle chunks ConnState.init 0).1).messages =
      (frameReaderSpec chunks.join).1 := by
  have hinit : drain ConnState.init.accumulator =
      ([], ConnState.init.accumulator) := by
    simp only [ConnState.init]
    exact drain_short [] (by simp)
  have h := handleConn_messages parse oracle hcl chunks ConnState.init 0 hinit
  rw [h]
  simp only [ConnState.init, List.nil_append]
  rw [drain_eq_frameReaderSpec]

/-- Witness for C8: an `L = 0` frame and a one-byte frame split awkwardly
across three reads produce the same messages — an empty payload and `[65]` —
as the spec algorithm on the joined stream. -/
theorem C8_witness :
    ((handleConn parseNone oracleOk [[0, 0, 0], [0, 0, 0], [0, 1, 65]]
        ConnState.init 0).1).messages =
      (frameReaderSpec
        (([[0, 0, 0], [0, 0, 0], [0, 1, 65]] : List (List Nat)).join)).1 :=
  C8_split_invariance parseNone oracleOk
    (by intro i h; simp [oracleOk] at h)
    [[0, 0, 0], [0, 0, 0], [0, 1, 65]]

/-! ## Claim about the schema validator -/

/-- A wire-format payload carrying a `trace_id` key, as the default schema
and the ingestion protocol spell it. -/
def payload10 : Json :=
  .obj [("timestamp", .str "2026-01-15T19:00:00Z"), ("level", .str "info"),
        ("message", .str "hi"), ("trace_id", .str "abc123")]

/-- C10: on the slow path, a JSON object carrying the wire-format key
`trace_id` passes schema validation (the default schema names `trace_id`),
yet the projected record has `trace_id = none`: serde's
`rename_all = "camelCase"` makes the typed record look up `traceId`, which
the wire format never uses. The five other field names are single lowercase
words, which camelCase leaves unchanged, so they are unaffected. -/
theorem C10_trace_id_rename :
    validateDefault payload10 = true ∧
    parseFastSlow payload10 =
      .ok { timestamp := "2026-01-15T19:00:00Z", level := "info",
            message := "hi", service := none, trace_id := none,
            metadata := none } ∧
    serdeKey "trace_id" = "traceId" ∧ serdeKey "trace_id" ≠ "trace_id" ∧
    serdeKey "timestamp" = "timestamp" ∧ serdeKey "level" = "level" ∧
    serdeKey "message" = "message" ∧ serdeKey "service" = "service" ∧
    serdeKey "metadata" = "metadata" := by
  refine ⟨by decide, rfl, by decide, by decide, by decide, by decide,
    by decide, by decide, by decide⟩

end DaemonRs
